import Mathlib

/-!
# Verification of the X info-collector coordination engine

Shallow embedding of the scheduler, enrichment and report-synthesis logic of
the `info-collector-X` repository, with theorems settling the specification
claims about it.  Times are modelled as integers (seconds); SQL rows are
modelled as Lean structures and SQL queries as pure functions over lists of
rows; monetary-free float arithmetic is modelled over `ℚ`.
-/

namespace InfoX

/-- `crawl_status` column of `twitter_users`
(`ENUM('pending','success','failed','quarantined')`). -/
inductive CrawlStatus
  | pending
  | success
  | failed
  | quarantined
  deriving DecidableEq, Repr

/-- `crawl_group` column of `twitter_users` (`ENUM('high','medium','low')`). -/
inductive CrawlGroup
  | high
  | medium
  | low
  deriving DecidableEq, Repr

/-- A row of the `twitter_users` table, restricted to the columns the
scheduling state machine touches (`database.py`, `_get_twitter_users_table_sql`).
Timestamps are integer seconds. -/
structure UserRow where
  uid : Nat
  group : CrawlGroup
  nextCrawlTime : Int
  status : CrawlStatus
  failedAttempts : Nat
  deriving DecidableEq, Repr

/-- A freshly bootstrapped account: schema defaults are
`crawl_status = 'pending'`, `failed_attempts = 0`
(`_get_twitter_users_table_sql` in `database.py`). -/
def freshUser (uid : Nat) (g : CrawlGroup) (t : Int) : UserRow :=
  { uid := uid, group := g, nextCrawlTime := t, status := .pending,
    failedAttempts := 0 }

/-- `DatabaseManager.update_user_crawl_success` (`database.py`): sets
`crawl_status='success'`, `failed_attempts=0`, and the given
`next_crawl_time`. -/
def update_user_crawl_success (u : UserRow) (nextCrawl : Int) : UserRow :=
  { u with nextCrawlTime := nextCrawl, status := .success, failedAttempts := 0 }

/-- `DatabaseManager.update_user_crawl_failure` (`database.py`): increments
`failed_attempts`; if the new count reaches `max_failed_attempts` the account
is quarantined (its `next_crawl_time` is left untouched), otherwise it is
marked `failed` with `next_crawl_time = retry_time`. -/
def update_user_crawl_failure (maxFailures : Nat) (u : UserRow)
    (retryTime : Int) : UserRow :=
  let newFailures := u.failedAttempts + 1
  if newFailures ≥ maxFailures then
    { u with failedAttempts := newFailures, status := .quarantined }
  else
    { u with
        failedAttempts := newFailures
        nextCrawlTime := retryTime
        status := .failed }

/-- One fetch outcome applied to an account by the fetch worker
(`processor.process_single_user`). -/
inductive FetchOp
  | fetchSuccess (nextCrawl : Int)
  | fetchFailure (retryTime : Int)

/-- Apply one fetch outcome to a user row. -/
def applyFetchOp (maxFailures : Nat) (u : UserRow) : FetchOp → UserRow
  | .fetchSuccess t => update_user_crawl_success u t
  | .fetchFailure t => update_user_crawl_failure maxFailures u t

/-- Apply a sequence of fetch outcomes to a user row. -/
def applyFetchOps (maxFailures : Nat) (u : UserRow) (ops : List FetchOp) :
    UserRow :=
  ops.foldl (applyFetchOp maxFailures) u

/-- `DatabaseManager.get_users_for_crawl` (`database.py`): selects users in
the given group whose `next_crawl_time ≤ NOW()` and whose status is not
`quarantined`, in randomized order (`ORDER BY RAND()`), capped by `LIMIT`.
The input list order stands for the random order chosen by the database. -/
def get_users_for_crawl (users : List UserRow) (g : CrawlGroup) (now : Int)
    (limit : Nat) : List UserRow :=
  (users.filter (fun u =>
    u.group == g && decide (u.nextCrawlTime ≤ now) &&
      u.status != .quarantined)).take limit

/-- The quarantine invariant of the spec:
`consecutive_failures ≥ max_failures ⇔ status = QUARANTINED`. -/
def quarantineInvariant (maxFailures : Nat) (u : UserRow) : Prop :=
  u.failedAttempts ≥ maxFailures ↔ u.status = .quarantined

theorem quarantineInvariant_step (maxFailures : Nat)
    (hmax : 1 ≤ maxFailures) (u : UserRow)
    (h : quarantineInvariant maxFailures u) (op : FetchOp) :
    quarantineInvariant maxFailures (applyFetchOp maxFailures u op) := by
  unfold quarantineInvariant
  cases op with
  | fetchSuccess t =>
      show (0 ≥ maxFailures) ↔ (CrawlStatus.success = CrawlStatus.quarantined)
      exact iff_of_false (by omega) (by simp)
  | fetchFailure t =>
      simp only [applyFetchOp, update_user_crawl_failure]
      by_cases hq : u.failedAttempts + 1 ≥ maxFailures
      · rw [if_pos hq]
        exact iff_of_true hq rfl
      · rw [if_neg hq]
        exact iff_of_false hq (by simp)

theorem quarantineInvariant_ops (maxFailures : Nat)
    (hmax : 1 ≤ maxFailures) (u : UserRow)
    (h : quarantineInvariant maxFailures u) (ops : List FetchOp) :
    quarantineInvariant maxFailures (applyFetchOps maxFailures u ops) := by
  induction ops generalizing u with
  | nil => exact h
  | cons op ops ih =>
      exact ih _ (quarantineInvariant_step maxFailures hmax u h op)

/-- C1. Starting from a freshly created account, any sequence of
`update_user_crawl_failure` / `update_user_crawl_success` operations
preserves `consecutive_failures ≥ max_failed_attempts ⇔ status = QUARANTINED`,
and `get_users_for_crawl` never returns a quarantined account, for any tier,
clock, limit and candidate set. -/
theorem C1_quarantine_invariant_and_selection (maxFailures : Nat)
    (hmax : 1 ≤ maxFailures) (uid : Nat) (g : CrawlGroup) (t : Int)
    (ops : List FetchOp) (users : List UserRow) (g' : CrawlGroup)
    (now : Int) (limit : Nat) :
    quarantineInvariant maxFailures
      (applyFetchOps maxFailures (freshUser uid g t) ops) ∧
    (get_users_for_crawl users g' now limit).all
      (fun u => u.status != .quarantined) = true := by
  constructor
  · apply quarantineInvariant_ops maxFailures hmax _ _ ops
    simp only [quarantineInvariant, freshUser]
    constructor
    · intro h0; omega
    · intro h0; simp at h0
  · simp only [get_users_for_crawl, List.all_eq_true]
    intro u hu
    have hu' := List.mem_of_mem_take hu
    have := List.of_mem_filter hu'
    simp only [Bool.and_eq_true] at this
    exact this.2

theorem C1_quarantine_invariant_and_selection_witness :
    quarantineInvariant 3
      (applyFetchOps 3 (freshUser 1 .high 0)
        [.fetchFailure 5, .fetchFailure 9, .fetchFailure 12]) ∧
    (get_users_for_crawl
        [freshUser 2 .high (-1),
         { uid := 3, group := .high, nextCrawlTime := -4, status := .quarantined,
           failedAttempts := 3 }] .high 0 10).all
      (fun u => u.status != .quarantined) = true :=
  C1_quarantine_invariant_and_selection 3 (by decide) 1 .high 0
    [.fetchFailure 5, .fetchFailure 9, .fetchFailure 12]
    [freshUser 2 .high (-1),
     { uid := 3, group := .high, nextCrawlTime := -4, status := .quarantined,
       failedAttempts := 3 }] .high 0 10

/-! ## Quiet (sleep) window and the crawl tasks (`processor.py`, `tasks.py`) -/

/-- `[sleep_window]` configuration (`config.get_sleep_window_config`). -/
structure SleepWindowConfig where
  startHour : Nat
  endHour : Nat
  deriving DecidableEq, Repr

/-- `UserDataProcessor.check_sleep_window` (`processor.py`): returns true iff
the current UTC hour satisfies `start_hour ≤ hour ≤ end_hour`. -/
def check_sleep_window (cfg : SleepWindowConfig) (currentHour : Nat) : Bool :=
  decide (cfg.startHour ≤ currentHour) && decide (currentHour ≤ cfg.endHour)

/-- The result dictionary common to the crawl tasks (`tasks.py`), restricted
to the counter fields. -/
structure TaskResult where
  success : Bool
  usersProcessed : Nat
  usersSuccess : Nat
  usersFailed : Nat
  postsInserted : Nat
  deriving DecidableEq, Repr

/-- The zero-work result returned by a crawl task that does nothing. -/
def zeroTaskResult : TaskResult :=
  { success := true, usersProcessed := 0, usersSuccess := 0, usersFailed := 0,
    postsInserted := 0 }

/-- Environment a crawl run executes in: the UTC clock hour, the sleep-window
configuration, the `twitter_users` table, the clock, and for every user id the
outcome of crawling it (`none` = RSS fetch failed, `some n` = fetch succeeded
and `n` new posts were inserted).  This stands for the RSS gateway and the
`INSERT IGNORE` deduplication, whose internals the quiet-window claims never
touch. -/
structure CrawlEnv where
  currentHour : Nat
  sleepCfg : SleepWindowConfig
  users : List UserRow
  now : Int
  crawlOutcome : Nat → Option Nat
  groupLimit : CrawlGroup → Nat

/-- `UserDataProcessor.process_single_user` (`processor.py`), reduced to its
observable counters: a failed RSS fetch yields `(success := false, posts := 0)`,
a successful one yields the number of newly inserted posts. -/
def process_single_user (crawlOutcome : Nat → Option Nat) (u : UserRow) :
    Bool × Nat :=
  match crawlOutcome u.uid with
  | none => (false, 0)
  | some n => (true, n)

/-- `UserDataProcessor.process_users_batch` (`processor.py`): processes every
user of the batch and aggregates the counters (`success` is always true;
jitter sleeps are timing-only and not modelled). -/
def process_users_batch (crawlOutcome : Nat → Option Nat)
    (users : List UserRow) : TaskResult :=
  if users.isEmpty then zeroTaskResult
  else
    let results := users.map (process_single_user crawlOutcome)
    { success := true
      usersProcessed := results.length
      usersSuccess := (results.filter (fun r => r.1)).length
      usersFailed := results.length - (results.filter (fun r => r.1)).length
      postsInserted := (results.map (fun r => r.2)).sum }

/-- `tasks.run_crawl_task` (`tasks.py`): returns the zero-work success result
when the clock is inside the sleep window, otherwise selects due users for
the tier and processes them. -/
def run_crawl_task (env : CrawlEnv) (g : CrawlGroup) (limit : Option Nat) :
    TaskResult :=
  if check_sleep_window env.sleepCfg env.currentHour then zeroTaskResult
  else
    let lim := limit.getD (env.groupLimit g)
    let users := get_users_for_crawl env.users g env.now lim
    if users.isEmpty then zeroTaskResult
    else process_users_batch env.crawlOutcome users

/-- `DatabaseManager.get_all_active_users` (`database.py`): every user whose
status is not `quarantined` (ordered by `last_crawled_at`; the input order
stands for that order). -/
def get_all_active_users (users : List UserRow) : List UserRow :=
  users.filter (fun u => u.status != .quarantined)

/-- `tasks.run_full_crawl_task` (`tasks.py`): returns the zero-work success
result inside the sleep window or when there is no active user; otherwise it
calls `process_users_batch` with the keyword argument `delay_after_batch`,
which `UserDataProcessor.process_users_batch` does not accept, so the first
batch raises `TypeError` and the surrounding handler returns a failure
result. -/
def run_full_crawl_task (env : CrawlEnv) : TaskResult :=
  if check_sleep_window env.sleepCfg env.currentHour then zeroTaskResult
  else
    let allUsers := get_all_active_users env.users
    if allUsers.isEmpty then zeroTaskResult
    else
      { success := false, usersProcessed := 0, usersSuccess := 0,
        usersFailed := 0, postsInserted := 0 }

/-- `DatabaseManager.get_stale_users` (`database.py`): users with
`next_crawl_time < NOW() - INTERVAL hours_back HOUR` and status `pending`
(the clause `crawl_status != 'quarantined'` is subsumed), oldest first,
capped by `LIMIT`. -/
def get_stale_users (users : List UserRow) (now : Int) (hoursBack : Nat)
    (limit : Nat) : List UserRow :=
  (users.filter (fun u =>
    decide (u.nextCrawlTime < now - (hoursBack : Int) * 3600) &&
      u.status == .pending)).take limit

/-- `tasks.run_scavenger_task` (`tasks.py`): fetches stale users and processes
them.  Note: unlike the tiered and full crawl tasks it performs no
`check_sleep_window` call. -/
def run_scavenger_task (env : CrawlEnv) (limit : Nat) (hoursBack : Nat) :
    TaskResult :=
  let stale := get_stale_users env.users env.now hoursBack limit
  if stale.isEmpty then zeroTaskResult
  else process_users_batch env.crawlOutcome stale

/-- A concrete environment inside the default quiet window (UTC hour 18 with
window [17, 22]) holding one stale pending user whose crawl would insert two
posts. -/
def quietEnv : CrawlEnv :=
  { currentHour := 18
    sleepCfg := { startHour := 17, endHour := 22 }
    users := [{ uid := 7, group := .medium, nextCrawlTime := -100000,
                status := .pending, failedAttempts := 0 }]
    now := 0
    crawlOutcome := fun _ => some 2
    groupLimit := fun _ => 10 }

/-- C2 counterexample: with the clock inside the quiet window, the scavenger
task does not return zero work — it processes its stale user and inserts
posts, refuting the claim that every fetch job returns immediately with zero
users processed during the quiet window. -/
theorem C2_counterexample :
    check_sleep_window quietEnv.sleepCfg quietEnv.currentHour = true ∧
    ¬ ((run_scavenger_task quietEnv 100 12).usersProcessed = 0 ∧
       (run_scavenger_task quietEnv 100 12).postsInserted = 0) := by
  constructor
  · rfl
  · intro h
    have : (run_scavenger_task quietEnv 100 12).usersProcessed = 1 := rfl
    omega

/-- C2 (amended): for every clock hour inside the configured quiet window,
the tiered crawl task (any tier, any limit) and the full crawl return
immediately with `success = true` and zero users processed and zero posts
inserted; the scavenger task, however, performs no quiet-window check and
processes its stale users as usual. -/
theorem C2_quiet_window (env : CrawlEnv)
    (hwin : check_sleep_window env.sleepCfg env.currentHour = true)
    (g : CrawlGroup) (limit : Option Nat) (scLimit scHours : Nat) :
    run_crawl_task env g limit = zeroTaskResult ∧
    run_full_crawl_task env = zeroTaskResult ∧
    run_scavenger_task env scLimit scHours =
      (if (get_stale_users env.users env.now scHours scLimit).isEmpty then
        zeroTaskResult
      else
        process_users_batch env.crawlOutcome
          (get_stale_users env.users env.now scHours scLimit)) := by
  refine ⟨?_, ?_, rfl⟩
  · simp [run_crawl_task, hwin]
  · simp [run_full_crawl_task, hwin]

theorem C2_quiet_window_witness :
    check_sleep_window quietEnv.sleepCfg quietEnv.currentHour = true ∧
    run_crawl_task quietEnv .high none = zeroTaskResult ∧
    run_full_crawl_task quietEnv = zeroTaskResult :=
  ⟨rfl,
    (C2_quiet_window quietEnv rfl .high none 100 12).1,
    (C2_quiet_window quietEnv rfl .high none 100 12).2.1⟩

/-! ## Tier re-classification (`DatabaseManager.update_user_profiling`) -/

/-- SQL `LEAST` on two integers. -/
def intLeast (a b : Int) : Int := if a ≤ b then a else b

/-- SQL `GREATEST` on two integers. -/
def intGreatest (a b : Int) : Int := if a ≤ b then b else a

/-- MySQL `DATE(t)` for a timestamp in seconds: the calendar day number
(floor division, matching date truncation). -/
def dateOf (t : Int) : Int := t.fdiv 86400

/-- The state of one account as `update_user_profiling` sees it: its
scheduling row plus its posts' `published_at` timestamps. -/
structure ProfilingUser where
  status : CrawlStatus
  group : CrawlGroup
  avgPostsPerDay : ℚ
  createdAt : Int
  posts : List Int
  deriving DecidableEq, Repr

/-- The posts of the last seven days
(`tp.published_at >= DATE_SUB(NOW(), INTERVAL 7 DAY)`). -/
def windowPosts (now : Int) (posts : List Int) : List Int :=
  posts.filter (fun t => decide (now - 7 * 86400 ≤ t))

/-- The grouped subquery `s` of `update_user_profiling` (`database.py`): for a
user with at least one post in the window it yields `COUNT(*)` together with
`LEAST(7, GREATEST(1, DATEDIFF(CURDATE(), DATE(MIN(published_at))) + 1))`;
a user with no post in the window gets no row (the `LEFT JOIN` yields NULL,
modelled as `none`). -/
def profilingStats (now : Int) (posts : List Int) : Option (Nat × Int) :=
  match windowPosts now posts with
  | [] => none
  | t :: ts =>
      some (ts.length + 1,
        intLeast 7 (intGreatest 1
          (dateOf now - dateOf (ts.foldl intLeast t) + 1)))

/-- `COALESCE(s.cnt / NULLIF(s.days_observed, 0), 0)`. -/
def profilingAvg (s : Option (Nat × Int)) : ℚ :=
  match s with
  | none => 0
  | some (c, d) => if d = 0 then 0 else (c : ℚ) / (d : ℚ)

/-- `COALESCE(s.cnt, 0)`. -/
def profilingCnt (s : Option (Nat × Int)) : Nat :=
  match s with
  | none => 0
  | some (c, _) => c

/-- The per-row effect of the `UPDATE ... LEFT JOIN` statement of
`DatabaseManager.update_user_profiling` (`database.py`): rows with
`crawl_status = 'quarantined'` are excluded by the `WHERE` clause; all others
get `avg_posts_per_day` and `crawl_group` recomputed by the `CASE`
expression. -/
def update_user_profiling (now : Int) (u : ProfilingUser) : ProfilingUser :=
  if u.status = .quarantined then u
  else
    let s := profilingStats now u.posts
    let avg := profilingAvg s
    { u with
        avgPostsPerDay := avg
        group :=
          if avg > 10 then .high
          else if avg > 1 then .medium
          else if profilingCnt s = 0 ∧ dateOf now - dateOf u.createdAt < 3 then
            .medium
          else .low }

theorem profilingStats_nil (now : Int) (posts : List Int)
    (h : windowPosts now posts = []) : profilingStats now posts = none := by
  unfold profilingStats
  rw [h]

theorem profilingStats_cons (now : Int) (posts : List Int) (t : Int)
    (ts : List Int) (h : windowPosts now posts = t :: ts) :
    profilingStats now posts =
      some (ts.length + 1,
        intLeast 7 (intGreatest 1
          (dateOf now - dateOf (ts.foldl intLeast t) + 1))) := by
  unfold profilingStats
  rw [h]

theorem intLeast_intGreatest_clamp (x : Int) :
    1 ≤ intLeast 7 (intGreatest 1 x) ∧ intLeast 7 (intGreatest 1 x) ≤ 7 := by
  unfold intLeast intGreatest
  split <;> split <;> omega

theorem profilingCnt_eq_length (now : Int) (posts : List Int) :
    profilingCnt (profilingStats now posts) = (windowPosts now posts).length := by
  cases h : windowPosts now posts with
  | nil => rw [profilingStats_nil now posts h]; rfl
  | cons t ts => rw [profilingStats_cons now posts t ts h]; rfl

/-- C3. For every non-quarantined account, the reclassification job sets
`avg_posts_per_day` to (number of posts published in the last 7 days) divided
by a number of observed days that is clamped to `[1, 7]` (the average is 0
when there is no post in the window), and assigns the tier: HIGH iff the
average exceeds 10; MEDIUM iff it does not exceed 10 and either exceeds 1 or
the account has zero posts in the window and a record less than 3 days old
(cold-start pin); LOW otherwise.  Quarantined accounts are left unchanged. -/
theorem C3_update_user_profiling (now : Int) (u : ProfilingUser) :
    (u.status = .quarantined → update_user_profiling now u = u) ∧
    (u.status ≠ .quarantined →
      (let res := update_user_profiling now u
       let cnt := (windowPosts now u.posts).length
       (windowPosts now u.posts = [] → res.avgPostsPerDay = 0) ∧
       (windowPosts now u.posts ≠ [] →
         ∃ d : Int, 1 ≤ d ∧ d ≤ 7 ∧
           profilingStats now u.posts = some (cnt, d) ∧
           res.avgPostsPerDay = (cnt : ℚ) / (d : ℚ)) ∧
       (res.group = .high ↔ res.avgPostsPerDay > 10) ∧
       (res.group = .medium ↔
         (res.avgPostsPerDay ≤ 10 ∧
           (res.avgPostsPerDay > 1 ∨
             (cnt = 0 ∧ dateOf now - dateOf u.createdAt < 3)))) ∧
       (res.group = .low ↔
         (res.avgPostsPerDay ≤ 1 ∧
           ¬(cnt = 0 ∧ dateOf now - dateOf u.createdAt < 3))))) := by
  constructor
  · intro hqu
    simp [update_user_profiling, hqu]
  · intro hqu
    have hgroup : (update_user_profiling now u).group =
        (if profilingAvg (profilingStats now u.posts) > 10 then CrawlGroup.high
         else if profilingAvg (profilingStats now u.posts) > 1 then
           CrawlGroup.medium
         else if profilingCnt (profilingStats now u.posts) = 0 ∧
             dateOf now - dateOf u.createdAt < 3 then CrawlGroup.medium
         else CrawlGroup.low) := by
      rw [update_user_profiling, if_neg hqu]
    have havg : (update_user_profiling now u).avgPostsPerDay =
        profilingAvg (profilingStats now u.posts) := by
      rw [update_user_profiling, if_neg hqu]
    have hcnt : profilingCnt (profilingStats now u.posts) =
        (windowPosts now u.posts).length :=
      profilingCnt_eq_length now u.posts
    refine ⟨?_, ?_, ?_, ?_, ?_⟩
    · intro hw
      rw [havg, profilingStats_nil now u.posts hw]
      rfl
    · intro hw
      cases hwp : windowPosts now u.posts with
      | nil => exact absurd hwp hw
      | cons t ts =>
          have hsv := profilingStats_cons now u.posts t ts hwp
          have hdz : intLeast 7 (intGreatest 1
              (dateOf now - dateOf (ts.foldl intLeast t) + 1)) ≠ 0 := by
            have := intLeast_intGreatest_clamp
              (dateOf now - dateOf (ts.foldl intLeast t) + 1)
            omega
          refine ⟨intLeast 7 (intGreatest 1
              (dateOf now - dateOf (ts.foldl intLeast t) + 1)),
            (intLeast_intGreatest_clamp _).1, (intLeast_intGreatest_clamp _).2,
            ?_, ?_⟩
          · rw [hsv]
            simp
          · rw [havg, hsv]
            simp [profilingAvg, if_neg hdz]
    · -- HIGH ⇔ average > 10
      rw [hgroup, havg]
      by_cases h10 : profilingAvg (profilingStats now u.posts) > 10
      · rw [if_pos h10]
        exact iff_of_true rfl h10
      · rw [if_neg h10]
        by_cases h1 : profilingAvg (profilingStats now u.posts) > 1
        · rw [if_pos h1]
          exact iff_of_false (by simp) h10
        · rw [if_neg h1]
          by_cases hc : profilingCnt (profilingStats now u.posts) = 0 ∧
              dateOf now - dateOf u.createdAt < 3
          · rw [if_pos hc]
            exact iff_of_false (by simp) h10
          · rw [if_neg hc]
            exact iff_of_false (by simp) h10
    · -- MEDIUM characterisation
      rw [hgroup, havg, hcnt]
      by_cases h10 : profilingAvg (profilingStats now u.posts) > 10
      · rw [if_pos h10]
        exact iff_of_false (by simp) (fun h => (not_le.mpr h10) h.1)
      · rw [if_neg h10]
        by_cases h1 : profilingAvg (profilingStats now u.posts) > 1
        · rw [if_pos h1]
          exact iff_of_true rfl ⟨le_of_not_lt h10, Or.inl h1⟩
        · rw [if_neg h1]
          by_cases hc : (windowPosts now u.posts).length = 0 ∧
              dateOf now - dateOf u.createdAt < 3
          · rw [if_pos hc]
            exact iff_of_true rfl ⟨le_of_not_lt h10, Or.inr hc⟩
          · rw [if_neg hc]
            exact iff_of_false (by simp) (fun h => h.2.elim h1 hc)
    · -- LOW characterisation
      rw [hgroup, havg, hcnt]
      by_cases h10 : profilingAvg (profilingStats now u.posts) > 10
      · rw [if_pos h10]
        have h1 : (1 : ℚ) < profilingAvg (profilingStats now u.posts) := by
          linarith
        exact iff_of_false (by simp) (fun h => (not_le.mpr h1) h.1)
      · rw [if_neg h10]
        by_cases h1 : profilingAvg (profilingStats now u.posts) > 1
        · rw [if_pos h1]
          exact iff_of_false (by simp) (fun h => (not_le.mpr h1) h.1)
        · rw [if_neg h1]
          by_cases hc : (windowPosts now u.posts).length = 0 ∧
              dateOf now - dateOf u.createdAt < 3
          · rw [if_pos hc]
            exact iff_of_false (by simp) (fun h => h.2 hc)
          · rw [if_neg hc]
            exact iff_of_true rfl ⟨le_of_not_lt h1, hc⟩

/-- A concrete account for the C3 witness: two posts inside the 7-day window,
both published on the current day, so one observed day and an average of 2
posts per day. -/
def profilingUserW : ProfilingUser :=
  { status := .pending, group := .low, avgPostsPerDay := 0, createdAt := 0,
    posts := [605000, 640000, -100] }

theorem C3_update_user_profiling_witness :
    profilingUserW.status ≠ .quarantined ∧
    (update_user_profiling 648000 profilingUserW).group = .medium ∧
    (update_user_profiling 648000 profilingUserW).avgPostsPerDay = 2 := by
  have h := (C3_update_user_profiling 648000 profilingUserW).2 (by decide)
  have hw : windowPosts 648000 profilingUserW.posts = [605000, 640000] := by
    decide
  have hstats : profilingStats 648000 profilingUserW.posts = some (2, 1) := by
    rw [profilingStats_cons 648000 profilingUserW.posts 605000 [640000] hw]
    decide
  have havg2 : (update_user_profiling 648000 profilingUserW).avgPostsPerDay
      = 2 := by
    obtain ⟨d, _, _, hstats', havg⟩ := h.2.1 (by rw [hw]; simp)
    rw [hstats] at hstats'
    have hd : d = 1 := by
      have h2 := hstats'.symm
      simp only [Option.some.injEq, Prod.mk.injEq] at h2
      exact h2.2
    rw [havg, hw, hd]
    norm_num
  refine ⟨by decide, ?_, havg2⟩
  rw [h.2.2.2.1]
  refine ⟨by rw [havg2]; norm_num, Or.inl (by rw [havg2]; norm_num)⟩

/-! ## Enrichment claim/placeholder idempotence
(`DatabaseManager.get_posts_for_enrichment`,
`DatabaseManager.create_pending_post_analysis`,
`PostEnrichmentAnalyzer` in `post_enrichment.py`) -/

/-- `analysis_status` column of `post_analysis`
(`ENUM('pending','completed','failed')`). -/
inductive AnalysisStatus
  | pending
  | completed
  | failed
  deriving DecidableEq, Repr

/-- The slice of the store the enrichment job touches: the ids of the
`twitter_posts` rows and the `post_analysis` rows `(post_id, analysis_status)`.
The unique key `uniq_post_id` is the `analysisKeysNodup` invariant below. -/
structure EnrichState where
  posts : List Nat
  analysis : List (Nat × AnalysisStatus)
  deriving DecidableEq, Repr

/-- Whether a `post_analysis` row exists for the post. -/
def hasAnalysisRow (st : EnrichState) (pid : Nat) : Bool :=
  st.analysis.any (fun r => r.1 == pid)

/-- `DatabaseManager.get_posts_for_enrichment` (`database.py`): posts with no
`post_analysis` row (`LEFT JOIN ... WHERE pa.id IS NULL`), ordered by id
ascending, capped by `LIMIT`. -/
def get_posts_for_enrichment (st : EnrichState) (limit : Nat) : List Nat :=
  (((st.posts.filter (fun p => !hasAnalysisRow st p)).insertionSort
      (· ≤ ·)).take limit)

/-- `DatabaseManager.create_pending_post_analysis` (`database.py`):
`INSERT IGNORE` of a `('pending')` row for each post id; ids that already
have a row are ignored by the unique key on `post_id`. -/
def create_pending_post_analysis (st : EnrichState) (pids : List Nat) :
    EnrichState :=
  pids.foldl
    (fun s pid =>
      if hasAnalysisRow s pid then s
      else { s with analysis := s.analysis ++ [(pid, .pending)] })
    st

/-- `DatabaseManager.update_post_analysis` (`database.py`): `UPDATE` of the
row keyed by `post_id` to the given final status. -/
def update_post_analysis (st : EnrichState) (pid : Nat)
    (status : AnalysisStatus) : EnrichState :=
  { st with analysis :=
      st.analysis.map (fun r => if r.1 == pid then (r.1, status) else r) }

/-- `PostEnrichmentAnalyzer.run_enrichment_analysis` composed with
`process_posts_batch` (`post_enrichment.py`): claim up to `batch_size` posts,
pre-create the pending rows, then write each post's final status
(`completed` when the LLM analysis given by `outcome` succeeds, else
`failed`).  Returns the new state and the number of claimed posts. -/
def run_enrichment_analysis (st : EnrichState) (batchSize : Nat)
    (outcome : Nat → Bool) : EnrichState × Nat :=
  let claimed := get_posts_for_enrichment st batchSize
  let st1 := create_pending_post_analysis st claimed
  let st2 := claimed.foldl
    (fun s pid =>
      update_post_analysis s pid (if outcome pid then .completed else .failed))
    st1
  (st2, claimed.length)

/-- The unique key `uniq_post_id` of `post_analysis`: no two rows share a
`post_id`. -/
def analysisKeysNodup (st : EnrichState) : Prop :=
  (st.analysis.map (fun r => r.1)).Nodup


theorem create_pending_cons (st : EnrichState) (q : Nat) (qs : List Nat) :
    create_pending_post_analysis st (q :: qs) =
      (if hasAnalysisRow st q then create_pending_post_analysis st qs
       else create_pending_post_analysis
         { st with analysis := st.analysis ++ [(q, .pending)] } qs) := by
  simp only [create_pending_post_analysis, List.foldl_cons]
  by_cases hq : hasAnalysisRow st q <;> simp [hq]

theorem hasAnalysisRow_create_iff (pids : List Nat) (st : EnrichState)
    (pid : Nat) :
    hasAnalysisRow (create_pending_post_analysis st pids) pid = true ↔
      (hasAnalysisRow st pid = true ∨ pid ∈ pids) := by
  induction pids generalizing st with
  | nil => simp [create_pending_post_analysis]
  | cons q qs ih =>
      rw [create_pending_cons]
      by_cases hq : hasAnalysisRow st q
      · rw [if_pos hq, ih]
        constructor
        · rintro (h | h)
          · exact Or.inl h
          · exact Or.inr (List.mem_cons_of_mem _ h)
        · rintro (h | h)
          · exact Or.inl h
          · rcases List.mem_cons.mp h with h' | h'
            · exact Or.inl (by rw [h']; exact hq)
            · exact Or.inr h'
      · rw [if_neg hq, ih]
        have happ : hasAnalysisRow
            { st with analysis := st.analysis ++ [(q, .pending)] } pid = true ↔
            (hasAnalysisRow st pid = true ∨ pid = q) := by
          simp only [hasAnalysisRow, List.any_append, List.any_cons,
            List.any_nil, Bool.or_false, Bool.or_eq_true, beq_iff_eq]
          constructor
          · rintro (h | h)
            · exact Or.inl h
            · exact Or.inr h.symm
          · rintro (h | h)
            · exact Or.inl h
            · exact Or.inr h.symm
        rw [happ]
        constructor
        · rintro ((h | h) | h)
          · exact Or.inl h
          · exact Or.inr (by rw [h]; exact List.mem_cons_self q qs)
          · exact Or.inr (List.mem_cons_of_mem _ h)
        · rintro (h | h)
          · exact Or.inl (Or.inl h)
          · rcases List.mem_cons.mp h with h' | h'
            · exact Or.inl (Or.inr h')
            · exact Or.inr h'

theorem hasAnalysisRow_update (st : EnrichState) (pid q : Nat)
    (status : AnalysisStatus) :
    hasAnalysisRow (update_post_analysis st pid status) q =
      hasAnalysisRow st q := by
  simp only [hasAnalysisRow, update_post_analysis, List.any_map]
  congr 1
  funext r
  by_cases h : r.1 = pid
  · simp [Function.comp, h]
  · simp [Function.comp, h]

theorem hasAnalysisRow_updates (st : EnrichState) (pids : List Nat)
    (f : Nat → AnalysisStatus) (q : Nat) :
    hasAnalysisRow
      (pids.foldl (fun s pid => update_post_analysis s pid (f pid)) st) q =
      hasAnalysisRow st q := by
  induction pids generalizing st with
  | nil => rfl
  | cons p ps ih => rw [List.foldl_cons, ih, hasAnalysisRow_update]

theorem analysisKeys_update (st : EnrichState) (pid : Nat)
    (status : AnalysisStatus) :
    (update_post_analysis st pid status).analysis.map (fun r => r.1) =
      st.analysis.map (fun r => r.1) := by
  simp only [update_post_analysis, List.map_map]
  congr 1
  funext r
  by_cases h : r.1 = pid
  · simp [Function.comp, h]
  · simp [Function.comp, h]

theorem analysisKeys_updates (st : EnrichState) (pids : List Nat)
    (f : Nat → AnalysisStatus) :
    ((pids.foldl (fun s pid => update_post_analysis s pid (f pid))
      st).analysis.map (fun r => r.1)) = st.analysis.map (fun r => r.1) := by
  induction pids generalizing st with
  | nil => rfl
  | cons p ps ih => rw [List.foldl_cons, ih, analysisKeys_update]

theorem hasAnalysisRow_iff_mem_keys (st : EnrichState) (pid : Nat) :
    hasAnalysisRow st pid = true ↔ pid ∈ st.analysis.map (fun r => r.1) := by
  simp only [hasAnalysisRow, List.any_eq_true, beq_iff_eq, List.mem_map]

theorem analysisKeysNodup_create (pids : List Nat) (st : EnrichState)
    (h : analysisKeysNodup st) :
    analysisKeysNodup (create_pending_post_analysis st pids) := by
  induction pids generalizing st with
  | nil => exact h
  | cons q qs ih =>
      rw [create_pending_cons]
      by_cases hq : hasAnalysisRow st q
      · rw [if_pos hq]
        exact ih st h
      · rw [if_neg hq]
        apply ih
        unfold analysisKeysNodup at h ⊢
        simp only [List.map_append, List.map_cons, List.map_nil]
        rw [List.nodup_append]
        refine ⟨h, List.nodup_singleton q, ?_⟩
        intro x hx hx'
        simp only [List.mem_singleton] at hx'
        subst hx'
        exact hq ((hasAnalysisRow_iff_mem_keys st x).mpr hx)

theorem analysisKeysNodup_run (st : EnrichState) (batchSize : Nat)
    (outcome : Nat → Bool) (h : analysisKeysNodup st) :
    analysisKeysNodup (run_enrichment_analysis st batchSize outcome).1 := by
  unfold run_enrichment_analysis analysisKeysNodup
  rw [analysisKeys_updates]
  exact analysisKeysNodup_create _ st h

theorem create_pending_of_all_present (pids : List Nat) (st : EnrichState)
    (h : ∀ p ∈ pids, hasAnalysisRow st p = true) :
    create_pending_post_analysis st pids = st := by
  induction pids with
  | nil => rfl
  | cons q qs ih =>
      rw [create_pending_cons, if_pos (h q (List.mem_cons_self q qs))]
      exact ih (fun p hp => h p (List.mem_cons_of_mem _ hp))

theorem create_pending_idempotent (st : EnrichState) (pids : List Nat) :
    create_pending_post_analysis (create_pending_post_analysis st pids) pids =
      create_pending_post_analysis st pids := by
  apply create_pending_of_all_present
  intro p hp
  exact (hasAnalysisRow_create_iff pids st p).mpr (Or.inr hp)

theorem posts_unchanged_create (pids : List Nat) (st : EnrichState) :
    (create_pending_post_analysis st pids).posts = st.posts := by
  induction pids generalizing st with
  | nil => rfl
  | cons q qs ih =>
      rw [create_pending_cons]
      by_cases hq : hasAnalysisRow st q
      · rw [if_pos hq]; exact ih st
      · rw [if_neg hq]; exact ih _

theorem posts_unchanged_updates (pids : List Nat) (st : EnrichState)
    (f : Nat → AnalysisStatus) :
    ((pids.foldl (fun s pid => update_post_analysis s pid (f pid))
      st).posts) = st.posts := by
  induction pids generalizing st with
  | nil => rfl
  | cons p ps ih => rw [List.foldl_cons, ih]; rfl

theorem posts_unchanged_run (st : EnrichState) (batchSize : Nat)
    (outcome : Nat → Bool) :
    (run_enrichment_analysis st batchSize outcome).1.posts = st.posts := by
  unfold run_enrichment_analysis
  rw [posts_unchanged_updates, posts_unchanged_create]

theorem hasAnalysisRow_after_run (st : EnrichState) (batchSize : Nat)
    (outcome : Nat → Bool) (q : Nat) :
    hasAnalysisRow (run_enrichment_analysis st batchSize outcome).1 q = true ↔
      (hasAnalysisRow st q = true ∨
        q ∈ get_posts_for_enrichment st batchSize) := by
  unfold run_enrichment_analysis
  rw [hasAnalysisRow_updates]
  exact hasAnalysisRow_create_iff _ st q

/-- The post ids of `st0` lacking an analysis row, in id order. -/
theorem get_posts_for_enrichment_covers (st : EnrichState) (limit : Nat)
    (hcount :
      (st.posts.filter (fun p => !hasAnalysisRow st p)).length ≤ limit)
    (p : Nat) (hp : p ∈ st.posts) (hnone : hasAnalysisRow st p = false) :
    p ∈ get_posts_for_enrichment st limit := by
  unfold get_posts_for_enrichment
  have hmem : p ∈ st.posts.filter (fun p => !hasAnalysisRow st p) :=
    List.mem_filter.mpr ⟨hp, by simp [hnone]⟩
  have hperm := List.perm_insertionSort (fun a b : Nat => a ≤ b)
    (st.posts.filter (fun p => !hasAnalysisRow st p))
  have hlen : ((st.posts.filter
      (fun p => !hasAnalysisRow st p)).insertionSort (· ≤ ·)).length ≤
      limit := by
    rw [hperm.length_eq]
    exact hcount
  rw [List.take_of_length_le hlen]
  exact hperm.mem_iff.mpr hmem

/-- C4 counterexample: with two posts lacking analysis rows and batch size 1,
the first enrichment run claims only one post, so the immediately following
second run still selects and enriches one post — not zero — refuting the
claim as universally stated. -/
theorem C4_counterexample :
    ¬ ((run_enrichment_analysis
        (run_enrichment_analysis
          { posts := [1, 2], analysis := [] } 1 (fun _ => true)).1
        1 (fun _ => true)).2 = 0) := by
  decide

/-- C4 (amended): provided the number of posts lacking an analysis row does
not exceed the batch limit, running the enrichment job twice back-to-back
(with no new posts inserted between runs) makes the second run select and
enrich zero posts; the placeholder insert is idempotent, and the unique key
on `post_id` (at most one analysis row per post) is preserved by a run. -/
theorem C4_enrichment_idempotent (st : EnrichState) (limit : Nat)
    (outcome outcome2 : Nat → Bool) (pids : List Nat)
    (hnodup : analysisKeysNodup st)
    (hcount :
      (st.posts.filter (fun p => !hasAnalysisRow st p)).length ≤ limit) :
    get_posts_for_enrichment
      (run_enrichment_analysis st limit outcome).1 limit = [] ∧
    (run_enrichment_analysis
      (run_enrichment_analysis st limit outcome).1 limit outcome2).2 = 0 ∧
    analysisKeysNodup (run_enrichment_analysis st limit outcome).1 ∧
    create_pending_post_analysis (create_pending_post_analysis st pids) pids =
      create_pending_post_analysis st pids := by
  have hfilter : (run_enrichment_analysis st limit outcome).1.posts.filter
      (fun p =>
        !hasAnalysisRow (run_enrichment_analysis st limit outcome).1 p) =
      [] := by
    rw [List.filter_eq_nil_iff]
    intro p hp
    rw [posts_unchanged_run] at hp
    simp only [Bool.not_eq_true', Bool.not_eq_false]
    cases hrow : hasAnalysisRow st p with
    | true =>
        exact (hasAnalysisRow_after_run st limit outcome p).mpr (Or.inl hrow)
    | false =>
        exact (hasAnalysisRow_after_run st limit outcome p).mpr
          (Or.inr (get_posts_for_enrichment_covers st limit hcount p hp hrow))
  have hsel : get_posts_for_enrichment
      (run_enrichment_analysis st limit outcome).1 limit = [] := by
    unfold get_posts_for_enrichment
    rw [hfilter]
    simp
  refine ⟨hsel, ?_, analysisKeysNodup_run st limit outcome hnodup,
    create_pending_idempotent st pids⟩
  show (get_posts_for_enrichment
    (run_enrichment_analysis st limit outcome).1 limit).length = 0
  rw [hsel]
  rfl

theorem C4_enrichment_idempotent_witness :
    analysisKeysNodup { posts := [3, 1, 2], analysis := [(2, .completed)] } ∧
    (({ posts := [3, 1, 2], analysis := [(2, .completed)] }
        : EnrichState).posts.filter
      (fun p => !hasAnalysisRow
        { posts := [3, 1, 2], analysis := [(2, .completed)] } p)).length ≤ 5 ∧
    get_posts_for_enrichment
      (run_enrichment_analysis
        { posts := [3, 1, 2], analysis := [(2, .completed)] } 5
        (fun p => p == 1)).1 5 = [] ∧
    (run_enrichment_analysis
      (run_enrichment_analysis
        { posts := [3, 1, 2], analysis := [(2, .completed)] } 5
        (fun p => p == 1)).1 5 (fun _ => true)).2 = 0 := by
  have h := C4_enrichment_idempotent
    { posts := [3, 1, 2], analysis := [(2, .completed)] } 5
    (fun p => p == 1) (fun _ => true) [7, 7, 9]
    (by unfold analysisKeysNodup; decide) (by decide)
  exact ⟨by unfold analysisKeysNodup; decide, by decide, h.1, h.2.1⟩

/-! ## Value scoring (`scoring.calculate_value_score`) and candidate ordering
(`intelligence_reports._fetch_and_score_posts`) -/

/-- Python's substring test `pat in s`, over the character sequence of the
string. -/
def strContains (s pat : String) : Bool :=
  s.data.tails.any (fun t => pat.data.isPrefixOf t)

/-- The `media_urls` value as the scoring code sees it: SQL NULL / absent,
a raw JSON string, or an already-parsed list. -/
inductive MediaUrls
  | null
  | str (s : String)
  | list (l : List String)
  deriving DecidableEq, Repr

/-- A joined post row as consumed by `calculate_value_score` (`scoring.py`):
the fields the scorer reads, with `Option` for keys that may be absent or
NULL. -/
structure ScoringPost where
  contentType : Option String
  postTag : Option String
  postContent : Option String
  deepInterpretation : Option String
  hasMediaField : Option Int
  mediaUrls : MediaUrls
  postType : Option String
  publishedAt : Int
  deriving DecidableEq, Repr

/-- The scoring configuration (`config.get_scoring_config`), with the score
tables already decoded from JSON (as `config.py` does).  Weights are exact
rationals standing for the Python floats. -/
structure ScoringConfig where
  baseScore : ℚ
  contentTypeScores : List (String × ℚ)
  tagScores : List (String × ℚ)
  postLengthWeight : ℚ
  interpretationLengthWeight : ℚ
  mediaBonus : ℚ
  linkBonus : ℚ
  deriving DecidableEq, Repr

/-- Dict lookup `tbl[k]` on an association list (dict keys are unique, so the
first match is the value). -/
def lookupTable (tbl : List (String × ℚ)) (k : String) : Option ℚ :=
  (tbl.find? (fun e => e.1 == k)).map (fun e => e.2)

/-- The media check of `calculate_value_score` (`scoring.py`): the `elif`
branch on `media_urls` — a non-empty string other than `'[]'` / `'null'`, or
a non-empty list. -/
def hasMediaFromUrls : MediaUrls → Bool
  | .null => false
  | .str s => s != "" && s != "[]" && s != "null"
  | .list l => !l.isEmpty

/-- The full media check: a truthy `has_media` field wins
(`bool(int(has_media))`); `0` or an absent field falls through to the
`media_urls` check. -/
def postHasMedia (p : ScoringPost) : Bool :=
  match p.hasMediaField with
  | some n => if n = 0 then hasMediaFromUrls p.mediaUrls else true
  | none => hasMediaFromUrls p.mediaUrls

/-- The link check of `calculate_value_score` (`scoring.py`):
`post_type == 'LinkShare'` or `'http' in content`. -/
def postIsLink (p : ScoringPost) : Bool :=
  p.postType == some "LinkShare" ||
    strContains (p.postContent.getD "") "http"

/-- Round-half-to-even to an integer, modelling Python's `round` on the exact
rational value of the float. -/
def pyRoundHalfEven (x : ℚ) : Int :=
  let n := ⌊x⌋
  let f := x - (n : ℚ)
  if f < 1/2 then n
  else if (1 : ℚ)/2 < f then n + 1
  else if n % 2 = 0 then n else n + 1

/-- Python's `round(x, 4)`. -/
def pyRound4 (x : ℚ) : ℚ := (pyRoundHalfEven (x * 10000) : ℚ) / 10000

/-- The conditional table addition of `calculate_value_score` (`scoring.py`):
`if key in table: score += float(table[key])`. -/
def addTableScore (score : ℚ) (tbl : List (String × ℚ)) (k : String) : ℚ :=
  match lookupTable tbl k with
  | some v => score + v
  | none => score

/-- The conditional tag addition of `calculate_value_score` (`scoring.py`):
`if tag and tag in tag_scores: score += float(tag_scores[tag])`. -/
def addTagScore (score : ℚ) (tbl : List (String × ℚ)) (tag : Option String) :
    ℚ :=
  match tag with
  | some t => if t ≠ "" then addTableScore score tbl t else score
  | none => score

/-- `scoring.calculate_value_score` (`scoring.py`): base score, plus the
content-type and tag table lookups (skipped when the key is absent or the tag
falsy), plus the two length terms, plus the media and link bonuses, rounded to
four decimal places. -/
def calculate_value_score (post : ScoringPost) (cfg : ScoringConfig) : ℚ :=
  let score1 := addTableScore cfg.baseScore cfg.contentTypeScores
    (post.contentType.getD "未分类")
  let score2 := addTagScore score1 cfg.tagScores post.postTag
  let score3 :=
    score2 + ((post.postContent.getD "").length : ℚ) * cfg.postLengthWeight
  let score4 := score3 + ((post.deepInterpretation.getD "").length : ℚ) *
    cfg.interpretationLengthWeight
  let score5 := if postHasMedia post then score4 + cfg.mediaBonus else score4
  let score6 := if postIsLink post then score5 + cfg.linkBonus else score5
  pyRound4 score6

/-- The tag-score term of the spec formula (`0` when the tag is falsy or the
key absent). -/
def tagTerm (tbl : List (String × ℚ)) (tag : Option String) : ℚ :=
  match tag with
  | some t => if t ≠ "" then (lookupTable tbl t).getD 0 else 0
  | none => 0

/-- Modelled from the spec: the score formula exactly as §4.8 states it — the
plain sum `base + content_type_score + tag_score + body_length×weight +
interpretation_length×weight + media_bonus + link_bonus`, with no rounding. -/
def score_spec (post : ScoringPost) (cfg : ScoringConfig) : ℚ :=
  cfg.baseScore +
    (lookupTable cfg.contentTypeScores (post.contentType.getD "未分类")).getD 0 +
    tagTerm cfg.tagScores post.postTag +
    ((post.postContent.getD "").length : ℚ) * cfg.postLengthWeight +
    ((post.deepInterpretation.getD "").length : ℚ) *
      cfg.interpretationLengthWeight +
    (if postHasMedia post then cfg.mediaBonus else 0) +
    (if postIsLink post then cfg.linkBonus else 0)

theorem addTableScore_eq (s : ℚ) (tbl : List (String × ℚ)) (k : String) :
    addTableScore s tbl k = s + (lookupTable tbl k).getD 0 := by
  unfold addTableScore
  cases h : lookupTable tbl k <;> simp

theorem addTagScore_eq (s : ℚ) (tbl : List (String × ℚ))
    (tag : Option String) :
    addTagScore s tbl tag = s + tagTerm tbl tag := by
  cases tag with
  | none => simp [addTagScore, tagTerm]
  | some t =>
      by_cases he : t = ""
      · simp [addTagScore, tagTerm, he]
      · simp [addTagScore, tagTerm, he, addTableScore_eq]

theorem calculate_value_score_eq_round_spec (post : ScoringPost)
    (cfg : ScoringConfig) :
    calculate_value_score post cfg = pyRound4 (score_spec post cfg) := by
  unfold calculate_value_score score_spec
  dsimp only
  apply congrArg
  rw [addTableScore_eq, addTagScore_eq]
  cases hm : postHasMedia post <;> cases hl : postIsLink post <;>
    simp [hm, hl]

/-- The sort key of `_fetch_and_score_posts` (`intelligence_reports.py`):
`(value_score, published_at)`. -/
def postKey (cfg : ScoringConfig) (p : ScoringPost) : ℚ × Int :=
  (calculate_value_score p cfg, p.publishedAt)

/-- The descending lexicographic order on `(score, published_at)` induced by
`sort(key=..., reverse=True)`. -/
def postGe (cfg : ScoringConfig) (p q : ScoringPost) : Prop :=
  (postKey cfg q).1 < (postKey cfg p).1 ∨
    ((postKey cfg p).1 = (postKey cfg q).1 ∧
      (postKey cfg q).2 ≤ (postKey cfg p).2)

instance (cfg : ScoringConfig) : DecidableRel (postGe cfg) := fun p q => by
  unfold postGe
  infer_instance

instance (cfg : ScoringConfig) : IsTotal ScoringPost (postGe cfg) where
  total p q := by
    unfold postGe
    rcases lt_trichotomy (postKey cfg p).1 (postKey cfg q).1 with h | h | h
    · exact Or.inr (Or.inl h)
    · rcases le_total (postKey cfg q).2 (postKey cfg p).2 with h2 | h2
      · exact Or.inl (Or.inr ⟨h, h2⟩)
      · exact Or.inr (Or.inr ⟨h.symm, h2⟩)
    · exact Or.inl (Or.inl h)

instance (cfg : ScoringConfig) : IsTrans ScoringPost (postGe cfg) where
  trans p q r hpq hqr := by
    unfold postGe at *
    rcases hpq with h1 | ⟨h1, h1'⟩ <;> rcases hqr with h2 | ⟨h2, h2'⟩
    · exact Or.inl (lt_trans h2 h1)
    · exact Or.inl (h2 ▸ h1)
    · exact Or.inl (h1 ▸ h2)
    · exact Or.inr ⟨h1.trans h2, le_trans h2' h1'⟩

/-- The parameter names of `DatabaseManager.get_enriched_posts_for_report`
(`database.py`): `start_time`, `end_time` and `limit` — nothing else, and no
`**kwargs`. -/
def getEnrichedPostsForReportParams : List String :=
  ["start_time", "end_time", "limit"]

/-- The extra keyword arguments `_fetch_and_score_posts` passes on its
selection call (`intelligence_reports.py`): `context_mode` and
`exclude_tags`. -/
def fetchAndScoreExtraKeywords : List String :=
  ["context_mode", "exclude_tags"]

/-- Python call semantics for that selection call: a keyword argument absent
from the callee's parameter list raises
`TypeError(... got an unexpected keyword argument ...)` before the callee
body runs; when every keyword is accepted, the callee returns its rows (the
database result is an input of the model). -/
def call_get_enriched_posts_for_report (rows : List ScoringPost)
    (kwargs : List String) : Except String (List ScoringPost) :=
  match kwargs.find?
      (fun k => !(getEnrichedPostsForReportParams.contains k)) with
  | some k =>
      .error ("get_enriched_posts_for_report() got an unexpected keyword " ++
        "argument \x27" ++ k ++ "\x27")
  | none => .ok rows

/-- `IntelligenceReportGenerator._fetch_and_score_posts`
(`intelligence_reports.py`): performs the selection call with the
`context_mode` / `exclude_tags` keywords — which the sole definition of
`get_enriched_posts_for_report` does not accept, so the call raises
`TypeError` and the exception propagates to the caller.  The scoring, the
descending `(value_score, published_at)` sort (modelled by insertion sort)
and the top-`limit` truncation in the `.ok` branch below are therefore never
reached. -/
def _fetch_and_score_posts (cfg : ScoringConfig) (rows : List ScoringPost)
    (limit : Nat) : Except String (List ScoringPost) :=
  match call_get_enriched_posts_for_report rows fetchAndScoreExtraKeywords with
  | .error e => .error e
  | .ok candidates =>
      if candidates.isEmpty then .ok []
      else .ok ((candidates.insertionSort (postGe cfg)).take limit)

/-- A post with every optional field absent. -/
def emptyPost : ScoringPost :=
  { contentType := none, postTag := none, postContent := none,
    deepInterpretation := none, hasMediaField := none, mediaUrls := .null,
    postType := none, publishedAt := 0 }

/-- A configuration whose only non-zero weight is a base score of `0.00001`. -/
def tinyBaseCfg : ScoringConfig :=
  { baseScore := 1 / 100000, contentTypeScores := [], tagScores := [],
    postLengthWeight := 0, interpretationLengthWeight := 0, mediaBonus := 0,
    linkBonus := 0 }

/-- C5 counterexample: the scorer does not return the plain spec sum — it
rounds to four decimal places, so with base score `0.00001` and all other
weights zero the returned score is `0`, not `0.00001`. -/
theorem C5_counterexample :
    calculate_value_score emptyPost tinyBaseCfg ≠
      score_spec emptyPost tinyBaseCfg ∧
    calculate_value_score emptyPost tinyBaseCfg = 0 ∧
    score_spec emptyPost tinyBaseCfg = 1 / 100000 := by
  have hspec : score_spec emptyPost tinyBaseCfg = 1 / 100000 := by
    simp [score_spec, emptyPost, tinyBaseCfg, tagTerm, lookupTable,
      postHasMedia, hasMediaFromUrls, postIsLink, strContains]
  have hcalc : calculate_value_score emptyPost tinyBaseCfg = 0 := by
    rw [calculate_value_score_eq_round_spec, hspec]
    have h1 : ((1 : ℚ) / 100000) * 10000 = 1 / 10 := by norm_num
    have hfl : ⌊(1 : ℚ)/10⌋ = 0 := by norm_num [Int.floor_eq_iff]
    rw [pyRound4, h1, pyRoundHalfEven]
    rw [hfl]
    norm_num
  exact ⟨by rw [hcalc, hspec]; norm_num, hcalc, hspec⟩

/-- C5 (amended): the value scorer is a deterministic pure function of the
post and the configuration, and it returns the spec's sum — base score, table
lookups defaulting to 0, the two length-weight terms, and the media / link
bonuses — *rounded to four decimal places*.  The candidate-ordering step of
`_fetch_and_score_posts` is never performed: for every candidate pool and
limit, the function's selection call passes keyword arguments that
`get_enriched_posts_for_report` does not accept and raises `TypeError`
before any scoring or sorting. -/
theorem C5_value_score (post : ScoringPost) (cfg : ScoringConfig)
    (rows : List ScoringPost) (limit : Nat) :
    calculate_value_score post cfg = calculate_value_score post cfg ∧
    calculate_value_score post cfg = pyRound4 (score_spec post cfg) ∧
    _fetch_and_score_posts cfg rows limit =
      .error ("get_enriched_posts_for_report() got an unexpected keyword " ++
        "argument \x27context_mode\x27") := by
  exact ⟨rfl, calculate_value_score_eq_round_spec post cfg, rfl⟩

/-- Two posts with equal scores and different publication times, plus a
higher-scoring post, used in the witnesses. -/
def postA : ScoringPost := { emptyPost with publishedAt := 100 }

def postB : ScoringPost := { emptyPost with publishedAt := 200 }

def postC : ScoringPost :=
  { emptyPost with postContent := some "xy", publishedAt := 50 }

/-- A configuration with base 1 and a body-length weight of 1. -/
def lenCfg : ScoringConfig :=
  { baseScore := 1, contentTypeScores := [], tagScores := [],
    postLengthWeight := 1, interpretationLengthWeight := 0, mediaBonus := 0,
    linkBonus := 0 }

theorem C5_value_score_witness :
    calculate_value_score postA lenCfg = calculate_value_score postA lenCfg ∧
    calculate_value_score postA lenCfg = pyRound4 (score_spec postA lenCfg) ∧
    _fetch_and_score_posts lenCfg [postA, postB, postC] 3 =
      .error ("get_enriched_posts_for_report() got an unexpected keyword " ++
        "argument \x27context_mode\x27") :=
  C5_value_score postA lenCfg [postA, postB, postC] 3

/-! ## Context packing
(`IntelligenceReportGenerator.format_enriched_posts_for_smart_llm`) -/

/-- `interpretation_mode` of the generator (`light` or `full`). -/
inductive ContextMode
  | light
  | full
  deriving DecidableEq, Repr

/-- A joined enriched-post row as the report formatter sees it. -/
structure ReportPost where
  userId : Option String
  postUrl : Option String
  postContent : Option String
  hasMediaField : Option Int
  mediaUrls : MediaUrls
  deepInterpretation : Option String
  llmSummary : Option String
  deriving DecidableEq, Repr

/-- The three string helpers of the formatter whose internals the packing
claims never touch: `_clean_image_urls_from_content` (regex cleaning plus the
`[附N张图]` note), `json.loads` restricted to string lists, and `_truncate`.
The packing theorems hold for every choice of these functions. -/
structure TextHelpers where
  cleanContent : String → Nat → String
  parseJsonList : String → Option (List String)
  truncate : String → Nat → String

/-- Python `str.strip()` on the character sequence. -/
def pyStrip (s : String) : String :=
  String.mk
    (((s.data.dropWhile Char.isWhitespace).reverse.dropWhile
      Char.isWhitespace).reverse)

/-- `IntelligenceReportGenerator._post_has_media` (`intelligence_reports.py`):
a non-`None` `has_media` field decides (`bool(int(flag))`); otherwise a truthy
`media_urls` that parses to a non-empty list. -/
def reportPostHasMedia (h : TextHelpers) (p : ReportPost) : Bool :=
  match p.hasMediaField with
  | some n => n != 0
  | none =>
      match p.mediaUrls with
      | .null => false
      | .str s =>
          if s = "" then false
          else
            match h.parseJsonList s with
            | some l => !l.isEmpty
            | none => false
      | .list l => !l.isEmpty

/-- The `media_count` computation of the formatter: the length of the parsed
`media_urls` list when the post has media, else 0. -/
def reportMediaCount (h : TextHelpers) (p : ReportPost) : Nat :=
  if reportPostHasMedia h p then
    match p.mediaUrls with
    | .null => 0
    | .str s =>
        if s = "" then 0
        else
          match h.parseJsonList s with
          | some l => l.length
          | none => 0
    | .list l => l.length
  else 0

/-- `str(post.get('user_id') or 'unknown').lstrip('@') or 'unknown'`. -/
def userHandle (p : ReportPost) : String :=
  let raw := p.userId.getD ""
  let raw := if raw = "" then "unknown" else raw
  let stripped := String.mk (raw.data.dropWhile (fun c => c = '@'))
  if stripped = "" then "unknown" else stripped

/-- `include_deep = not (context_mode == 'light' and not has_media)`. -/
def includeDeep (h : TextHelpers) (mode : ContextMode) (p : ReportPost) :
    Bool :=
  !(mode == .light && !reportPostHasMedia h p)

/-- The deep-interpretation line content: the stripped field, or
`无深度洞察` when empty. -/
def deepText (p : ReportPost) : String :=
  let d := pyStrip (p.deepInterpretation.getD "")
  if d = "" then "无深度洞察" else d

/-- One formatted context block
`[Tn @handle]\n<cleaned content>[\n→ 洞察: <deep>]` of the formatter. -/
def formatBlock (h : TextHelpers) (mode : ContextMode) (p : ReportPost)
    (i : Nat) : String :=
  let sid := "T" ++ toString i
  let content := h.cleanContent (p.postContent.getD "")
    (reportMediaCount h p)
  if includeDeep h mode p then
    "[" ++ sid ++ " @" ++ userHandle p ++ "]\n" ++ content ++ "\n→ 洞察: " ++
      deepText p
  else
    "[" ++ sid ++ " @" ++ userHandle p ++ "]\n" ++ content

/-- One entry of the sources map built alongside the context. -/
structure SourceEntry where
  sid : String
  title : String
  link : String
  nickname : String
  excerpt : String
  deriving DecidableEq, Repr

/-- The source entry appended for post number `i`. -/
def mkSource (h : TextHelpers) (p : ReportPost) (i : Nat) : SourceEntry :=
  let content := h.cleanContent (p.postContent.getD "")
    (reportMediaCount h p)
  let summary := p.llmSummary.getD "无摘要"
  { sid := "T" ++ toString i
    title := h.truncate (if summary = "" then content else summary) 100
    link := p.postUrl.getD "未知"
    nickname := userHandle p
    excerpt := h.truncate content 120 }

/-- The enumeration loop of `format_enriched_posts_for_smart_llm`
(`intelligence_reports.py`): `i` is the 1-based index, `total` the characters
accumulated so far; the first block that would push `total` past
`max_content_length` breaks the loop. -/
def packBlocks (h : TextHelpers) (mode : ContextMode) (maxLen : Nat) :
    List ReportPost → Nat → Nat → List String × List SourceEntry
  | [], _, _ => ([], [])
  | p :: ps, i, total =>
      let block := formatBlock h mode p i
      if total + block.length > maxLen then ([], [])
      else
        let rest := packBlocks h mode maxLen ps (i + 1) (total + block.length)
        (block :: rest.1, mkSource h p i :: rest.2)

/-- `IntelligenceReportGenerator.format_enriched_posts_for_smart_llm`
(`intelligence_reports.py`): the joined context string and the sources map. -/
def format_enriched_posts_for_smart_llm (h : TextHelpers) (mode : ContextMode)
    (maxLen : Nat) (posts : List ReportPost) :
    String × List SourceEntry :=
  let r := packBlocks h mode maxLen posts 1 0
  (String.intercalate "\n\n---\n\n" r.1, r.2)

/-- All blocks the loop would format, starting at index `i`. -/
def allBlocks (h : TextHelpers) (mode : ContextMode) :
    List ReportPost → Nat → List String
  | [], _ => []
  | p :: ps, i => formatBlock h mode p i :: allBlocks h mode ps (i + 1)

theorem formatBlock_length_pos (h : TextHelpers) (mode : ContextMode)
    (p : ReportPost) (i : Nat) : 0 < (formatBlock h mode p i).length := by
  have h1 : ("[" : String).length = 1 := rfl
  unfold formatBlock
  split <;> simp [String.length_append, h1]

theorem packBlocks_sum (h : TextHelpers) (mode : ContextMode) (maxLen : Nat) :
    ∀ (posts : List ReportPost) (i total : Nat), total ≤ maxLen →
      total + (((packBlocks h mode maxLen posts i total).1.map
        String.length).sum) ≤ maxLen := by
  intro posts
  induction posts with
  | nil => intro i total htot; simpa [packBlocks] using htot
  | cons p ps ih =>
      intro i total htot
      rw [packBlocks]
      by_cases hover : total + (formatBlock h mode p i).length > maxLen
      · simpa [hover] using htot
      · have hfit : total + (formatBlock h mode p i).length ≤ maxLen := by
          omega
        simp only [if_neg hover, List.map_cons, List.sum_cons]
        have := ih (i + 1) (total + (formatBlock h mode p i).length) hfit
        omega

theorem packBlocks_take (h : TextHelpers) (mode : ContextMode)
    (maxLen : Nat) :
    ∀ (posts : List ReportPost) (i total : Nat),
      (packBlocks h mode maxLen posts i total).1 =
        (allBlocks h mode posts i).take
          (packBlocks h mode maxLen posts i total).1.length := by
  intro posts
  induction posts with
  | nil => intro i total; rfl
  | cons p ps ih =>
      intro i total
      rw [packBlocks, allBlocks]
      by_cases hover : total + (formatBlock h mode p i).length > maxLen
      · simp [hover]
      · simp only [if_neg hover, List.length_cons, List.take_succ_cons,
          List.cons.injEq, true_and]
        exact ih (i + 1) (total + (formatBlock h mode p i).length)

/-- C6. For every list of enriched posts, every helper choice and every
character budget: the packed blocks form a prefix of the formatted blocks;
their total character count never exceeds `max_content_length`; and when the
budget exactly equals the length of the first block, exactly one block is
packed. -/
theorem C6_context_packer (h : TextHelpers) (mode : ContextMode)
    (maxLen : Nat) (posts : List ReportPost) (hpos : 0 < maxLen) :
    ((packBlocks h mode maxLen posts 1 0).1 =
      (allBlocks h mode posts 1).take
        (packBlocks h mode maxLen posts 1 0).1.length) ∧
    (((packBlocks h mode maxLen posts 1 0).1.map String.length).sum ≤
      maxLen) ∧
    (∀ p ps, posts = p :: ps →
      maxLen = (formatBlock h mode p 1).length →
      (packBlocks h mode maxLen posts 1 0).1.length = 1) := by
  refine ⟨packBlocks_take h mode maxLen posts 1 0, ?_, ?_⟩
  · have := packBlocks_sum h mode maxLen posts 1 0 (Nat.zero_le _)
    omega
  · rintro p ps rfl hlen
    rw [packBlocks]
    have hover : ¬ (0 + (formatBlock h mode p 1).length > maxLen) := by
      omega
    rw [if_neg hover]
    cases ps with
    | nil => rfl
    | cons q qs =>
        rw [packBlocks]
        have hq := formatBlock_length_pos h mode q 2
        have hover2 : 0 + (formatBlock h mode p 1).length +
            (formatBlock h mode q 2).length > maxLen := by
          omega
        rw [if_pos hover2]
        rfl

/-- Concrete helpers for the C6 witness: identity cleaning, no JSON parsing,
truncation by `take`. -/
def plainHelpers : TextHelpers :=
  { cleanContent := fun s _ => s
    parseJsonList := fun _ => none
    truncate := fun s n => String.mk (s.data.take n) }

/-- The first witness post. -/
def reportPostW : ReportPost :=
  { userId := some "@alice", postUrl := some "https://x/p/1",
    postContent := some "hello", hasMediaField := some 0, mediaUrls := .null,
    deepInterpretation := some "insight", llmSummary := some "sum" }

theorem C6_context_packer_witness :
    0 < (formatBlock plainHelpers .full reportPostW 1).length ∧
    (((packBlocks plainHelpers .full
        (formatBlock plainHelpers .full reportPostW 1).length
        [reportPostW, reportPostW] 1 0).1.map String.length).sum ≤
      (formatBlock plainHelpers .full reportPostW 1).length) ∧
    (packBlocks plainHelpers .full
      (formatBlock plainHelpers .full reportPostW 1).length
      [reportPostW, reportPostW] 1 0).1.length = 1 := by
  have h := C6_context_packer plainHelpers .full
    (formatBlock plainHelpers .full reportPostW 1).length
    [reportPostW, reportPostW]
    (formatBlock_length_pos plainHelpers .full reportPostW 1)
  exact ⟨formatBlock_length_pos plainHelpers .full reportPostW 1, h.2.1,
    h.2.2 reportPostW [reportPostW] rfl rfl⟩

/-! ## Report synthesis fan-out
(`IntelligenceReportGenerator.generate_intelligence_report`,
`_generate_report_for_model_sync`) -/

/-- The environment one model's report task runs against: the outcome of the
LLM call (`some content` when `call_smart_model` returned success, `none`
with `errMsg` otherwise), whether `save_intelligence_report` returns true,
and whether the Notion push succeeds. -/
structure ModelOutcome where
  llmContent : Option String
  errMsg : String
  saveOk : Bool
  notionOk : Bool

/-- The per-model result dictionary of `_generate_report_for_model_sync`. -/
structure ModelReport where
  model : String
  success : Bool
  persisted : Bool
  notionPushOk : Bool
  error : Option String
  deriving DecidableEq, Repr

/-- `_generate_report_for_model_sync` (`intelligence_reports.py`): a failed
LLM call returns `success=False` with the error message and persists nothing;
a successful call builds the report, attempts the database save (best-effort:
a failed save is only logged) and the Notion push, and returns
`success=True` regardless of either. -/
def generate_report_for_model_sync (name : String) (o : ModelOutcome) :
    ModelReport :=
  match o.llmContent with
  | none =>
      { model := name, success := false, persisted := false,
        notionPushOk := false,
        error := some ("LLM调用失败: " ++ o.errMsg) }
  | some _ =>
      { model := name, success := true, persisted := o.saveOk,
        notionPushOk := o.notionOk, error := none }

/-- One entry of the `failures` list of the report run. -/
structure FailureEntry where
  model : String
  error : String
  deriving DecidableEq, Repr

/-- The aggregated result of `generate_intelligence_report`. -/
structure ReportRun where
  success : Bool
  persistedCount : Nat
  modelReports : List ModelReport
  failures : List FailureEntry
  errorMsg : Option String
  deriving DecidableEq, Repr

/-- `generate_intelligence_report` (`intelligence_reports.py`): its whole
body runs inside one `try`.  The candidate selection
`_fetch_and_score_posts` raises `TypeError` (see above); the `except`
handler catches it and returns the `生成异常` error response with
`success=False`.  The no-posts / no-models bail-outs and the per-model
fan-out (one report task per model, successful reports collected into
`model_reports`, one `failures` entry per unsuccessful model, `success` iff
at least one model report succeeded, `persistedCount` the models whose
database save went through) are written out in the `.ok` branch but are
unreachable. -/
def generate_intelligence_report (cfg : ScoringConfig)
    (rows : List ScoringPost) (limit : Nat) (models : List String)
    (outcome : String → ModelOutcome) : ReportRun :=
  match _fetch_and_score_posts cfg rows limit with
  | .error e =>
      { success := false, persistedCount := 0, modelReports := [],
        failures := [], errorMsg := some ("生成异常: " ++ e) }
  | .ok enriched =>
      if enriched.isEmpty then
        { success := false, persistedCount := 0, modelReports := [],
          failures := [], errorMsg := some "没有可用的帖子数据" }
      else if models.isEmpty then
        { success := false, persistedCount := 0, modelReports := [],
          failures := [], errorMsg := some "未配置可用的LLM模型" }
      else
        let reports := models.map
          (fun m => generate_report_for_model_sync m (outcome m))
        let successes := reports.filter (fun r => r.success)
        let failed := reports.filter (fun r => !r.success)
        { success := !successes.isEmpty
          persistedCount := (reports.filter (fun r => r.persisted)).length
          modelReports := successes
          failures := failed.map
            (fun r => { model := r.model, error := r.error.getD "报告生成失败" })
          errorMsg := none }

theorem gen_report_success (outcome : String → ModelOutcome) (m : String) :
    (generate_report_for_model_sync m (outcome m)).success =
      (outcome m).llmContent.isSome := by
  unfold generate_report_for_model_sync
  cases (outcome m).llmContent <;> rfl

theorem gen_report_persisted (outcome : String → ModelOutcome) (m : String) :
    (generate_report_for_model_sync m (outcome m)).persisted =
      ((outcome m).llmContent.isSome && (outcome m).saveOk) := by
  unfold generate_report_for_model_sync
  cases (outcome m).llmContent <;> rfl

/-- An outcome map for the claim's two-model scenario: `good` would generate
and save, `bad` always fails with an HTTP 500. -/
def scenarioOutcome : String → ModelOutcome := fun m =>
  if m = "good" then
    { llmContent := some "# report", errMsg := "", saveOk := true,
      notionOk := true }
  else
    { llmContent := none, errMsg := "HTTP 500", saveOk := false,
      notionOk := false }

/-- C7 counterexample: at the claim's own scenario — two configured models of
which one always fails — the run does not yield `success=true` with one
persisted row and one failures entry: the selection call raises `TypeError`
before the fan-out, so the run returns `success=false` with the `生成异常`
error, zero persisted rows and an empty failures list. -/
theorem C7_counterexample :
    (generate_intelligence_report lenCfg [postA] 1 ["good", "bad"]
      scenarioOutcome).success = false ∧
    (generate_intelligence_report lenCfg [postA] 1 ["good", "bad"]
      scenarioOutcome).persistedCount = 0 ∧
    (generate_intelligence_report lenCfg [postA] 1 ["good", "bad"]
      scenarioOutcome).failures = [] := by
  exact ⟨rfl, rfl, rfl⟩

/-- C7 (amended): a report-synthesis run never reaches the model fan-out.
Its candidate selection passes the `context_mode` / `exclude_tags` keywords
that `get_enriched_posts_for_report` does not accept, the resulting
`TypeError` is caught by the surrounding handler, and for every candidate
pool, limit, model list and model behaviour the run returns `success=false`
with the `生成异常` error message, zero persisted report rows, no model
reports and an empty failures list. -/
theorem C7_report_fanout (cfg : ScoringConfig) (rows : List ScoringPost)
    (limit : Nat) (models : List String)
    (outcome : String → ModelOutcome) :
    generate_intelligence_report cfg rows limit models outcome =
      { success := false, persistedCount := 0, modelReports := [],
        failures := [],
        errorMsg := some ("生成异常: get_enriched_posts_for_report() got " ++
          "an unexpected keyword argument \x27context_mode\x27") } := by
  rfl

/-! ## The model client (`llm_client._make_request`, `llm_client.call_vlm`) -/

/-- What one HTTP attempt yields after streaming assembly: the concatenated
content, or the exception text `str(e)`. -/
inductive AttemptOutcome
  | ok (content : String)
  | err (msg : String)
  deriving DecidableEq, Repr

/-- The attempt outcome after the empty-response check: a blank concatenation
raises `ValueError(emptyMsg)`, which the `except` turns into a failure. -/
def effectiveOutcome (env : Nat → AttemptOutcome) (emptyMsg : String)
    (attempt : Nat) : AttemptOutcome :=
  match env attempt with
  | .ok c => if pyStrip c = "" then .err emptyMsg else .ok c
  | .err m => .err m

/-- The observable result of one client call: success flag, error text,
stripped content, number of attempts performed, and the list of backoff
sleeps (in seconds) taken between attempts. -/
structure CallResult where
  success : Bool
  errMsg : Option String
  content : Option String
  attemptsMade : Nat
  waits : List Nat
  deriving DecidableEq, Repr

/-- The retry loop of `LLMClient._make_request` (`llm_client.py`), with
`attempt` the 0-based index and `remaining` the attempts left
(`max_retries - attempt`).  A successful non-empty response returns; on the
last attempt the failure is returned with `total_attempts = max_retries`;
otherwise the loop sleeps `(attempt+1) × 2` seconds and retries.  No error
class aborts the loop early. -/
def makeRequestAux (env : Nat → AttemptOutcome) (attempt : Nat) :
    Nat → List Nat → CallResult
  | 0, waits =>
      { success := false, errMsg := none, content := none,
        attemptsMade := attempt, waits := waits }
  | remaining + 1, waits =>
      match effectiveOutcome env "LLM返回空响应" attempt with
      | .ok c =>
          { success := true, errMsg := none, content := some (pyStrip c),
            attemptsMade := attempt + 1, waits := waits }
      | .err m =>
          if remaining = 0 then
            { success := false, errMsg := some m, content := none,
              attemptsMade := attempt + 1, waits := waits }
          else
            makeRequestAux env (attempt + 1) remaining
              (waits ++ [(attempt + 1) * 2])

/-- `LLMClient._make_request` (`llm_client.py`). -/
def _make_request (env : Nat → AttemptOutcome) (maxRetries : Nat) :
    CallResult :=
  makeRequestAux env 0 maxRetries []

/-- The abort test of `call_vlm` (`llm_client.py`): `"400" in str(e) or
"图片输入格式" in str(e) or "解析错误" in str(e)`. -/
def isVlmAbortError (msg : String) : Bool :=
  strContains msg "400" || strContains msg "图片输入格式" ||
    strContains msg "解析错误"

/-- The retry loop of `LLMClient.call_vlm` (`llm_client.py`): identical to the
text loop except that an error matching `isVlmAbortError` returns immediately
without further attempts. -/
def callVlmAux (env : Nat → AttemptOutcome) (attempt : Nat) :
    Nat → List Nat → CallResult
  | 0, waits =>
      { success := false, errMsg := none, content := none,
        attemptsMade := attempt, waits := waits }
  | remaining + 1, waits =>
      match effectiveOutcome env "VLM返回空响应" attempt with
      | .ok c =>
          { success := true, errMsg := none, content := some (pyStrip c),
            attemptsMade := attempt + 1, waits := waits }
      | .err m =>
          if isVlmAbortError m then
            { success := false, errMsg := some ("图片格式错误: " ++ m),
              content := none, attemptsMade := attempt + 1, waits := waits }
          else if remaining = 0 then
            { success := false, errMsg := some m, content := none,
              attemptsMade := attempt + 1, waits := waits }
          else
            callVlmAux env (attempt + 1) remaining
              (waits ++ [(attempt + 1) * 2])

/-- One attachment of a vision call (the dicts of `image_data_list`): its
`type` tag (`url` / `base64`), payload, original URL, and `success` flag. -/
structure VlmImage where
  imgType : String
  data : Option String
  url : Option String
  success : Bool
  deriving DecidableEq, Repr

/-- The filter of `call_vlm` (`llm_client.py`):
`img.get('success', False) and img.get('data')`. -/
def validImages (l : List VlmImage) : List VlmImage :=
  l.filter (fun img => img.success && (img.data.getD "") != "")

/-- A vision call's result together with the attachments actually sent. -/
structure VlmCallResult where
  result : CallResult
  sentImages : List VlmImage
  deriving DecidableEq, Repr


/-- The failure result `call_vlm` returns before contacting the model. -/
def earlyVlmFailure (msg : String) : CallResult :=
  { success := false, errMsg := some msg, content := none,
    attemptsMade := 0, waits := [] }

/-- `LLMClient.call_vlm` (`llm_client.py`): an empty attachment list or an
attachment list with no valid image returns a failure without contacting the
model; more than 10 valid images are truncated to the first 10; then the
retry loop runs. -/
def call_vlm (env : Nat → AttemptOutcome) (images : List VlmImage)
    (maxRetries : Nat) : VlmCallResult :=
  if images.isEmpty then
    { result := earlyVlmFailure "没有提供图片数据", sentImages := [] }
  else
    let valid := validImages images
    if valid.isEmpty then
      { result := earlyVlmFailure "没有有效的图片数据", sentImages := [] }
    else
      let valid := if valid.length > 10 then valid.take 10 else valid
      { result := callVlmAux env 0 maxRetries [], sentImages := valid }

theorem makeRequestAux_spec (env : Nat → AttemptOutcome) :
    ∀ (remaining attempt : Nat) (waits : List Nat),
      (makeRequestAux env attempt remaining waits).attemptsMade ≤
        attempt + remaining ∧
      (1 ≤ remaining →
        attempt + 1 ≤
          (makeRequestAux env attempt remaining waits).attemptsMade) ∧
      (makeRequestAux env attempt remaining waits).waits =
        waits ++ (List.range' (attempt + 1)
          ((makeRequestAux env attempt remaining waits).attemptsMade -
            attempt - 1)).map (· * 2) := by
  intro remaining
  induction remaining with
  | zero =>
      intro attempt waits
      refine ⟨Nat.le_refl _, by omega, ?_⟩
      show waits = waits ++ (List.range' (attempt + 1)
        (attempt - attempt - 1)).map (· * 2)
      have h0 : attempt - attempt - 1 = 0 := by omega
      rw [h0]
      simp
  | succ r ih =>
      intro attempt waits
      rw [makeRequestAux]
      cases heff : effectiveOutcome env "LLM返回空响应" attempt with
      | ok c =>
          dsimp only
          refine ⟨by omega, by omega, ?_⟩
          have h0 : attempt + 1 - attempt - 1 = 0 := by omega
          rw [h0]
          simp
      | err m =>
          dsimp only
          by_cases hr : r = 0
          · rw [if_pos hr]
            dsimp only
            refine ⟨by omega, by omega, ?_⟩
            have h0 : attempt + 1 - attempt - 1 = 0 := by omega
            rw [h0]
            simp
          · rw [if_neg hr]
            obtain ⟨h1, h2, h3⟩ := ih (attempt + 1)
              (waits ++ [(attempt + 1) * 2])
            have hge : attempt + 2 ≤
                (makeRequestAux env (attempt + 1) r
                  (waits ++ [(attempt + 1) * 2])).attemptsMade :=
              h2 (by omega)
            refine ⟨by omega, by omega, ?_⟩
            rw [h3]
            have hc1 : (makeRequestAux env (attempt + 1) r
                (waits ++ [(attempt + 1) * 2])).attemptsMade - attempt - 1 =
                ((makeRequestAux env (attempt + 1) r
                  (waits ++ [(attempt + 1) * 2])).attemptsMade -
                    attempt - 2) + 1 := by
              omega
            have hc2 : (makeRequestAux env (attempt + 1) r
                (waits ++ [(attempt + 1) * 2])).attemptsMade -
                  (attempt + 1) - 1 =
                (makeRequestAux env (attempt + 1) r
                  (waits ++ [(attempt + 1) * 2])).attemptsMade -
                    attempt - 2 := by
              omega
            rw [hc1, hc2, List.range'_succ, List.map_cons, List.append_assoc]
            rfl

theorem callVlmAux_spec (env : Nat → AttemptOutcome) :
    ∀ (remaining attempt : Nat) (waits : List Nat),
      (callVlmAux env attempt remaining waits).attemptsMade ≤
        attempt + remaining ∧
      (1 ≤ remaining →
        attempt + 1 ≤ (callVlmAux env attempt remaining waits).attemptsMade) ∧
      (callVlmAux env attempt remaining waits).waits =
        waits ++ (List.range' (attempt + 1)
          ((callVlmAux env attempt remaining waits).attemptsMade -
            attempt - 1)).map (· * 2) := by
  intro remaining
  induction remaining with
  | zero =>
      intro attempt waits
      refine ⟨Nat.le_refl _, by omega, ?_⟩
      show waits = waits ++ (List.range' (attempt + 1)
        (attempt - attempt - 1)).map (· * 2)
      have h0 : attempt - attempt - 1 = 0 := by omega
      rw [h0]
      simp
  | succ r ih =>
      intro attempt waits
      rw [callVlmAux]
      cases heff : effectiveOutcome env "VLM返回空响应" attempt with
      | ok c =>
          dsimp only
          refine ⟨by omega, by omega, ?_⟩
          have h0 : attempt + 1 - attempt - 1 = 0 := by omega
          rw [h0]
          simp
      | err m =>
          dsimp only
          by_cases habort : isVlmAbortError m
          · rw [if_pos habort]
            dsimp only
            refine ⟨by omega, by omega, ?_⟩
            have h0 : attempt + 1 - attempt - 1 = 0 := by omega
            rw [h0]
            simp
          · rw [if_neg habort]
            by_cases hr : r = 0
            · rw [if_pos hr]
              dsimp only
              refine ⟨by omega, by omega, ?_⟩
              have h0 : attempt + 1 - attempt - 1 = 0 := by omega
              rw [h0]
              simp
            · rw [if_neg hr]
              obtain ⟨h1, h2, h3⟩ := ih (attempt + 1)
                (waits ++ [(attempt + 1) * 2])
              have hge : attempt + 2 ≤
                  (callVlmAux env (attempt + 1) r
                    (waits ++ [(attempt + 1) * 2])).attemptsMade :=
                h2 (by omega)
              refine ⟨by omega, by omega, ?_⟩
              rw [h3]
              have hc1 : (callVlmAux env (attempt + 1) r
                  (waits ++ [(attempt + 1) * 2])).attemptsMade - attempt - 1 =
                  ((callVlmAux env (attempt + 1) r
                    (waits ++ [(attempt + 1) * 2])).attemptsMade -
                      attempt - 2) + 1 := by
                omega
              have hc2 : (callVlmAux env (attempt + 1) r
                  (waits ++ [(attempt + 1) * 2])).attemptsMade -
                    (attempt + 1) - 1 =
                  (callVlmAux env (attempt + 1) r
                    (waits ++ [(attempt + 1) * 2])).attemptsMade -
                      attempt - 2 := by
                omega
              rw [hc1, hc2, List.range'_succ, List.map_cons,
                List.append_assoc]
              rfl

/-- An environment whose every attempt fails with a 400-class error. -/
def err400Env : Nat → AttemptOutcome := fun _ =>
  .err "Error code: 400 - Bad Request"

/-- C8 counterexample: the text-chat path `_make_request` has no abort-on-400
logic — with every attempt failing on a 400-class error and
`max_retries = 3`, it still performs all 3 attempts instead of aborting after
the first one as the claim states. -/
theorem C8_counterexample :
    strContains "Error code: 400 - Bad Request" "400" = true ∧
    (_make_request err400Env 3).attemptsMade = 3 ∧
    (_make_request err400Env 3).success = false := by
  refine ⟨by decide, rfl, rfl⟩

/-- C8 (amended): every call makes at most `max_retries` attempts, and the
sleeps between consecutive attempts are exactly `attempt × 2` seconds
(attempt numbered from 1); the immediate abort on a 400-class / bad-image
error applies to the vision call only: when the first vision attempt fails
with such an error, exactly one attempt is made; the text-chat path
`_make_request` has no such abort and retries through every error class. -/
theorem C8_retry_policy (env : Nat → AttemptOutcome) (maxRetries : Nat)
    (images : List VlmImage) (m : String)
    (hmax : 1 ≤ maxRetries)
    (hvalid : (validImages images).isEmpty = false)
    (himg : images.isEmpty = false)
    (heff : effectiveOutcome env "VLM返回空响应" 0 = .err m)
    (habort : isVlmAbortError m = true) :
    (_make_request env maxRetries).attemptsMade ≤ maxRetries ∧
    (_make_request env maxRetries).waits =
      (List.range' 1
        ((_make_request env maxRetries).attemptsMade - 1)).map (· * 2) ∧
    (call_vlm env images maxRetries).result.attemptsMade ≤ maxRetries ∧
    (call_vlm env images maxRetries).result.waits =
      (List.range' 1
        ((call_vlm env images maxRetries).result.attemptsMade - 1)).map
          (· * 2) ∧
    (call_vlm env images maxRetries).result.attemptsMade = 1 ∧
    (call_vlm env images maxRetries).result.success = false := by
  obtain ⟨hm1, _, hm3⟩ := makeRequestAux_spec env maxRetries 0 []
  have hcall : (call_vlm env images maxRetries).result =
      callVlmAux env 0 maxRetries [] := by
    simp [call_vlm, himg, hvalid]
  obtain ⟨hv1, _, hv3⟩ := callVlmAux_spec env maxRetries 0 []
  have habort1 : callVlmAux env 0 maxRetries [] =
      { success := false, errMsg := some ("图片格式错误: " ++ m),
        content := none, attemptsMade := 1, waits := [] } := by
    obtain ⟨k, rfl⟩ : ∃ k, maxRetries = k + 1 :=
      ⟨maxRetries - 1, by omega⟩
    rw [callVlmAux, heff]
    dsimp only
    rw [if_pos habort]
  refine ⟨by simpa using hm1, by simpa using hm3, ?_, ?_, ?_, ?_⟩
  · rw [hcall]
    simpa using hv1
  · rw [hcall, habort1]
    rfl
  · rw [hcall, habort1]
  · rw [hcall, habort1]

/-- A valid attachment for the witnesses. -/
def imgW : VlmImage :=
  { imgType := "url", data := some "https://pic/1.png",
    url := some "https://pic/1.png", success := true }

theorem C8_retry_policy_witness :
    (1 ≤ 3 ∧ (validImages [imgW]).isEmpty = false ∧
      ([imgW] : List VlmImage).isEmpty = false ∧
      effectiveOutcome err400Env "VLM返回空响应" 0 =
        .err "Error code: 400 - Bad Request" ∧
      isVlmAbortError "Error code: 400 - Bad Request" = true) ∧
    (_make_request err400Env 3).attemptsMade ≤ 3 ∧
    (_make_request err400Env 3).waits = [2, 4] ∧
    (call_vlm err400Env [imgW] 3).result.attemptsMade = 1 ∧
    (call_vlm err400Env [imgW] 3).result.success = false := by
  have h := C8_retry_policy err400Env 3 [imgW]
    "Error code: 400 - Bad Request" (by decide) rfl rfl rfl (by decide)
  refine ⟨⟨by decide, rfl, rfl, rfl, by decide⟩, h.1, ?_, h.2.2.2.2.1,
    h.2.2.2.2.2⟩
  rw [h.2.1]
  rfl

/-- C10. Every vision call attaches at most 10 images: the unsuccessful or
data-less attachments are filtered out first and only the first 10 valid ones
are sent; a call whose attachment list has no valid image fails without
contacting the model (zero attempts). -/
theorem C10_vlm_image_cap (env : Nat → AttemptOutcome)
    (images : List VlmImage) (maxRetries : Nat) :
    (call_vlm env images maxRetries).sentImages.length ≤ 10 ∧
    (call_vlm env images maxRetries).sentImages =
      (validImages images).take 10 ∧
    ((validImages images).isEmpty = true →
      (call_vlm env images maxRetries).result.success = false ∧
      (call_vlm env images maxRetries).result.attemptsMade = 0) := by
  unfold call_vlm
  by_cases himg : images.isEmpty
  · have himg' : images = [] := List.isEmpty_iff.mp himg
    subst himg'
    refine ⟨by simp, by simp [validImages],
      fun _ => ⟨by simp [earlyVlmFailure], by simp [earlyVlmFailure]⟩⟩
  · rw [if_neg himg]
    dsimp only
    by_cases hval : (validImages images).isEmpty
    · rw [if_pos hval]
      have hnil : validImages images = [] := List.isEmpty_iff.mp hval
      exact ⟨by simp, by simp [hnil, earlyVlmFailure], fun _ => ⟨rfl, rfl⟩⟩
    · rw [if_neg hval]
      dsimp only
      refine ⟨?_, ?_, fun hcon => absurd hcon (by simp [hval])⟩
      · by_cases hlen : (validImages images).length > 10
        · rw [if_pos hlen]
          simp [List.length_take]
        · rw [if_neg hlen]
          omega
      · by_cases hlen : (validImages images).length > 10
        · rw [if_pos hlen]
        · rw [if_neg hlen]
          rw [List.take_of_length_le (by omega)]

/-- An attachment marked successful but carrying no data (filtered out). -/
def noDataImg : VlmImage :=
  { imgType := "url", data := none, url := some "broken", success := true }

/-- Twelve attachments, of which eleven are valid. -/
def manyImages : List VlmImage :=
  (List.range 11).map (fun i =>
    { imgType := "url", data := some ("u" ++ toString i),
      url := some ("u" ++ toString i), success := true }) ++ [noDataImg]

theorem C10_vlm_image_cap_witness :
    (call_vlm err400Env manyImages 3).sentImages.length ≤ 10 ∧
    (call_vlm err400Env manyImages 3).sentImages =
      (validImages manyImages).take 10 ∧
    ((validImages [noDataImg]).isEmpty = true →
      (call_vlm err400Env [noDataImg] 3).result.success = false ∧
      (call_vlm err400Env [noDataImg] 3).result.attemptsMade = 0) :=
  ⟨(C10_vlm_image_cap err400Env manyImages 3).1,
   (C10_vlm_image_cap err400Env manyImages 3).2.1,
   (C10_vlm_image_cap err400Env [noDataImg] 3).2.2⟩

/-! ## Enricher image handling (`post_insights_analysis.PostInsightsAnalyzer`) -/

/-- The stand-in for a parsed analysis JSON object returned by
`_robust_json_parser`. -/
structure AnalysisData where
  raw : String
  deriving DecidableEq, Repr

/-- A post row as `_analyze_single_post` sees it, with `media_urls` already
JSON-decoded (`none` stands for NULL or an undecodable value). -/
structure InsightPost where
  pid : Nat
  postContent : Option String
  mediaUrls : Option (List String)
  deriving DecidableEq, Repr

/-- `PostInsightsAnalyzer._extract_image_urls` (`post_insights_analysis.py`):
keep the string URLs containing `twimg` and not containing `video`, then
deduplicate (`list(set(...))`; the set order is modelled by keeping first
occurrences). -/
def _extract_image_urls (mediaUrls : Option (List String)) : List String :=
  match mediaUrls with
  | none => []
  | some l =>
      (l.filter (fun u =>
        strContains u "twimg" && !(strContains u "video"))).eraseDups

/-- `PostInsightsAnalyzer._prepare_image_data` (`post_insights_analysis.py`):
in URL mode every URL becomes a `url`-typed attachment; in base64 mode only
URLs with a non-empty cached base64 payload become attachments, the rest are
dropped. -/
def _prepare_image_data (useImageUrl : Bool) (cache : String → Option String)
    (urls : List String) : List VlmImage :=
  if useImageUrl then
    urls.map (fun u =>
      { imgType := "url", data := some u, url := some u, success := true })
  else
    urls.filterMap (fun u =>
      match cache u with
      | some b =>
          if b = "" then none
          else some
            { imgType := "base64", data := some b, url := some u,
              success := true }
      | none => none)

/-- The environment `_analyze_single_post` runs against: the image mode and
cache, the call-level outcomes of the primary vision model, the fallback
vision model and the fast text model (`some content` on success; the retry
internals of those calls are the `call_vlm` / `_make_request` models above),
the configured model names, and `_robust_json_parser` abstracted as `parse`
(its regex repair internals are not touched by this claim). -/
structure AnalyzerEnv where
  useImageUrl : Bool
  imageCache : String → Option String
  vlmPrimary : Option String
  vlmFallback : Option String
  fastModel : Option String
  parse : String → Option AnalysisData
  vlmModelName : String
  vlmFallbackModelName : String
  fastModelName : String

/-- The result value of `_analyze_single_post`: an error dictionary (saved
with status `failed`) or a parsed analysis with the model that produced it. -/
inductive PostAnalysisOutcome
  | errorResult (msg : String)
  | completed (modelName : String) (usedVision : Bool) (data : AnalysisData)
  deriving DecidableEq, Repr

/-- `PostInsightsAnalyzer._analyze_single_post`
(`post_insights_analysis.py`): posts with extracted image URLs go down the
vision path — and when no valid image data was prepared, the function returns
the error result `没有有效图片数据（图片下载或处理失败）` without calling any
model; posts without image URLs go down the text path. -/
def _analyze_single_post (env : AnalyzerEnv) (post : InsightPost) :
    Nat × PostAnalysisOutcome :=
  let imageUrls := _extract_image_urls post.mediaUrls
  if imageUrls.isEmpty then
    match env.fastModel with
    | none => (post.pid, .errorResult "LLM处理失败")
    | some content =>
        match env.parse content with
        | none => (post.pid, .errorResult "无法从LLM响应中提取有效的JSON")
        | some d => (post.pid, .completed env.fastModelName false d)
  else
    let imageData := _prepare_image_data env.useImageUrl env.imageCache
      imageUrls
    if imageData.isEmpty then
      (post.pid, .errorResult "没有有效图片数据（图片下载或处理失败）")
    else
      match env.vlmPrimary with
      | some content =>
          match env.parse content with
          | none => (post.pid, .errorResult "无法从LLM响应中提取有效的JSON")
          | some d => (post.pid, .completed env.vlmModelName true d)
      | none =>
          match env.vlmFallback with
          | some content =>
              match env.parse content with
              | none =>
                  (post.pid, .errorResult "无法从LLM响应中提取有效的JSON")
              | some d =>
                  (post.pid, .completed env.vlmFallbackModelName true d)
          | none => (post.pid, .errorResult "主VLM和托底VLM都失败")

/-- `run_analysis` saves an error result with status `failed` and a parsed
result with status `completed` (`post_insights_analysis.py`). -/
def recordStatus : PostAnalysisOutcome → AnalysisStatus
  | .errorResult _ => .failed
  | .completed _ _ _ => .completed

/-- An analyzer environment in inline-base64 mode whose image cache holds
nothing (every image download failed), with working models and parser. -/
def allImagesFailEnv : AnalyzerEnv :=
  { useImageUrl := false
    imageCache := fun _ => none
    vlmPrimary := some "vision output"
    vlmFallback := some "vision output"
    fastModel := some "text output"
    parse := fun s => some { raw := s }
    vlmModelName := "vlm"
    vlmFallbackModelName := "vlm-fallback"
    fastModelName := "fast" }

/-- A post carrying one image URL. -/
def imagePostW : InsightPost :=
  { pid := 42, postContent := some "hello",
    mediaUrls := some ["https://pbs.twimg.com/media/a.jpg"] }

/-- C9 counterexample: in inline-base64 mode with every image download
failed, the image-bearing post is recorded as a FAILED enrichment with the
no-valid-image error — it is not downgraded to text-only processing as the
claim states. -/
theorem C9_counterexample :
    (_analyze_single_post allImagesFailEnv imagePostW).2 =
      .errorResult "没有有效图片数据（图片下载或处理失败）" ∧
    recordStatus (_analyze_single_post allImagesFailEnv imagePostW).2 =
      .failed := by
  exact ⟨rfl, rfl⟩

/-- C9 (amended): in inline-base64 mode, an image-bearing post all of whose
image URLs failed to download or process is recorded as a failed enrichment
with the error `没有有效图片数据（图片下载或处理失败）`; it is not downgraded
to text-only processing. -/
theorem C9_no_image_downgrade (env : AnalyzerEnv) (post : InsightPost)
    (hurl : (_extract_image_urls post.mediaUrls).isEmpty = false)
    (hmode : env.useImageUrl = false)
    (hcache : ∀ u, env.imageCache u = none) :
    (_analyze_single_post env post).2 =
      .errorResult "没有有效图片数据（图片下载或处理失败）" ∧
    recordStatus (_analyze_single_post env post).2 = .failed := by
  have hprep : _prepare_image_data env.useImageUrl env.imageCache
      (_extract_image_urls post.mediaUrls) = [] := by
    rw [hmode]
    unfold _prepare_image_data
    rw [if_neg (by simp)]
    rw [List.filterMap_eq_nil_iff]
    intro u hu
    rw [hcache u]
  have hres : (_analyze_single_post env post).2 =
      .errorResult "没有有效图片数据（图片下载或处理失败）" := by
    simp only [_analyze_single_post]
    rw [hurl]
    simp only [Bool.false_eq_true, if_false]
    rw [hprep]
    simp
  exact ⟨hres, by rw [hres]; rfl⟩

theorem C9_no_image_downgrade_witness :
    ((_extract_image_urls imagePostW.mediaUrls).isEmpty = false ∧
      allImagesFailEnv.useImageUrl = false) ∧
    (_analyze_single_post allImagesFailEnv imagePostW).2 =
      .errorResult "没有有效图片数据（图片下载或处理失败）" ∧
    recordStatus (_analyze_single_post allImagesFailEnv imagePostW).2 =
      .failed :=
  ⟨⟨rfl, rfl⟩,
    C9_no_image_downgrade allImagesFailEnv imagePostW rfl rfl (fun _ => rfl)⟩
